import Mathlib

/-!
Verification of the tailscale network-lock (tka) key model and the
CLI JSON log output, as a shallow embedding of the Go sources:
  - `tka/key.go` (KeyKind, Key, StaticValidate, ID, Ed25519, Clone, JSON codec)
  - `types/tkatype/tkatype.go` (KeyID JSON codec)
  - `cmd/tailscale/cli/jsonoutput/network-lock.go` (PrintNetworkLockJSON)

Modelling conventions:
  - A Go byte slice is `Option Bytes` where `Bytes := List Nat`: `none` is a
    nil slice and `some l` is a non-nil slice with contents `l`. Each element
    stands for one byte, so it is `< 256` for real data; theorems that need
    this carry it as a hypothesis.
  - A Go string is `GoStr := List Char`, one `Char` per byte (all data
    handled here is ASCII).
  - A Go `map[string]string` is `Option (List (GoStr × GoStr))`: `none` is a
    nil map, `some l` a non-nil map with entries `l`.
  - Functions returning `error` become `Except String`.
  - JSON values produced or consumed by custom marshalers are modelled at the
    JSON-value level (`Json` below); the byte-level JSON syntax is Go's
    standard library and out of scope.
-/

deriving instance DecidableEq for Except

namespace Tka

/-- Contents of a Go byte slice; each element is one byte. -/
abbrev Bytes := List Nat

/-- A Go string, one `Char` per byte. -/
abbrev GoStr := List Char

/-- A JSON value, as far as the custom marshalers in scope produce or
consume one. -/
inductive Json where
  | null
  | str (s : GoStr)
  deriving DecidableEq, Repr

/-! ## Hexadecimal, as used by `fmt %x` and `encoding/hex.DecodeString` -/

/-- The lowercase hex digit for a value below 16, as `fmt` prints with the
`x` verb. -/
def hexDigitChar (n : Nat) : Char :=
  if n < 10 then Char.ofNat (48 + n) else Char.ofNat (87 + n)

/-- Lowercase hex encoding of a byte string: two digits per byte, high
nibble first (`fmt.Sprintf` with the `x` verb). The `% 256` on the high
nibble records that Go bytes are below 256 by type. -/
def hexEncode : Bytes → GoStr
  | [] => []
  | b :: rest => hexDigitChar (b % 256 / 16) :: hexDigitChar (b % 16) :: hexEncode rest

/-- Value of one hex digit, accepting both cases
(`encoding/hex.fromHexChar`). -/
def fromHexChar (c : Char) : Except String Nat :=
  if 48 ≤ c.toNat ∧ c.toNat ≤ 57 then .ok (c.toNat - 48)
  else if 97 ≤ c.toNat ∧ c.toNat ≤ 102 then .ok (c.toNat - 87)
  else if 65 ≤ c.toNat ∧ c.toNat ≤ 70 then .ok (c.toNat - 55)
  else .error "encoding hex: invalid byte"

/-- `encoding/hex.DecodeString`: consume digits two at a time; an odd-length
input or a non-digit is an error. -/
def hexDecode : GoStr → Except String Bytes
  | [] => .ok []
  | [_] => .error "encoding hex: odd length hex string"
  | c1 :: c2 :: rest =>
    match fromHexChar c1 with
    | .error e => .error e
    | .ok hi =>
      match fromHexChar c2 with
      | .error e => .error e
      | .ok lo =>
        match hexDecode rest with
        | .error e => .error e
        | .ok tail => .ok ((16 * hi + lo) :: tail)

/-- The sixteen characters lowercase hex output is drawn from. -/
def hexAlphabet : GoStr := "0123456789abcdef".data

/-! ## KeyKind (`tka/key.go`) -/

/-- `KeyKind` is a Go `uint8`; we model the value as a `Nat`. -/
abbrev KeyKind := Nat

/-- The invalid/unset sentinel kind. -/
def KeyInvalid : KeyKind := 0

/-- The Ed25519 kind. -/
def Key25519 : KeyKind := 1

/-- `KeyKind.String` (named `KeyKindString` here since `String` is taken). -/
def KeyKindString (k : KeyKind) : GoStr :=
  if k = KeyInvalid then "invalid".data
  else if k = Key25519 then "25519".data
  else "Key?<".data ++ Nat.toDigits 10 k ++ ">".data

/-- `KeyKind.MarshalText`: the `String` form, never an error. -/
def KeyKind.MarshalText (k : KeyKind) : GoStr :=
  KeyKindString k

/-- `KeyKind.UnmarshalText`: recognizes exactly the `String` forms of
`KeyInvalid` and `Key25519`. -/
def KeyKind.UnmarshalText (b : GoStr) : Except String KeyKind :=
  if b = KeyKindString KeyInvalid then .ok KeyInvalid
  else if b = KeyKindString Key25519 then .ok Key25519
  else .error "unrecognised key kind"

/-! ## Key (`tka/key.go`) -/

/-- `tka.Key`: the public components of a key known to network-lock. -/
structure Key where
  Kind : KeyKind
  Votes : Nat
  Public : Option Bytes
  Meta : Option (List (GoStr × GoStr))
  deriving DecidableEq, Repr

/-- Element-wise copy of a byte slice (`make` + `copy`). -/
def copyBytes : Bytes → Bytes
  | [] => []
  | b :: rest => b :: copyBytes rest

/-- Entry-wise copy of a string map (`make` + `range` loop). -/
def copyMeta : List (GoStr × GoStr) → List (GoStr × GoStr)
  | [] => []
  | kv :: rest => (kv.1, kv.2) :: copyMeta rest

/-- `Key.Clone`: start from a shallow copy, then replace `Public` and `Meta`
with fresh copies when they are non-nil, preserving nil-ness. -/
def Key.Clone (k : Key) : Key :=
  let out := k
  let out := match k.Public with
    | none => out
    | some p => { out with Public := some (copyBytes p) }
  let out := match k.Meta with
    | none => out
    | some m => { out with Meta := some (copyMeta m) }
  out

/-- `tkatype.KeyID`: a nilable byte slice referencing a verification key. -/
abbrev KeyID := Option Bytes

/-- `Key.ID`: for 25519 keys the 32-byte public is used directly as the
key ID; other kinds are an error. -/
def Key.ID (k : Key) : Except String KeyID :=
  if k.Kind = Key25519 then .ok k.Public
  else .error "unknown key kind"

/-- `Key.Ed25519`: the ed25519 public key encoded by the Key, or an error
for keys of any other kind. -/
def Key.Ed25519 (k : Key) : Except String (Option Bytes) :=
  if k.Kind = Key25519 then .ok k.Public
  else .error "key is not ed25519"

/-- `maxMetaBytes` from `tka/key.go`. -/
def maxMetaBytes : Nat := 512

/-- Total byte length of all metadata keys and values, as summed by the
`range` loop in `StaticValidate` (`len` of a Go string is its byte length). -/
def metaByteLen : Option (List (GoStr × GoStr)) → Nat
  | none => 0
  | some m => (m.map (fun kv => kv.1.length + kv.2.length)).sum

/-- `Key.StaticValidate`: votes in bounds, metadata bounded, kind
recognized. -/
def Key.StaticValidate (k : Key) : Except String Unit :=
  if k.Votes > 4096 then .error "excessive key weight"
  else if k.Votes = 0 then .error "key votes must be non-zero"
  else if metaByteLen k.Meta > maxMetaBytes then .error "key metadata too big"
  else if k.Kind = Key25519 then .ok ()
  else .error "unrecognized key kind"

/-- Whether an `Except` result is a success. -/
def isOk {ε α : Type} : Except ε α → Bool
  | .ok _ => true
  | .error _ => false

/-! ## JSON codecs (`types/tkatype/tkatype.go` and `tka/key.go`) -/

/-- The `"tlpub:"` tag prepended to hex-encoded key material. -/
def tlpubTag : GoStr := ['t', 'l', 'p', 'u', 'b', ':']

/-- Go `len` of a nilable byte slice: a nil slice has length 0. -/
def goLen (b : Option Bytes) : Nat := (b.getD []).length

/-- `tkatype.KeyID.MarshalJSON`: an empty (or nil) key ID marshals to JSON
null, otherwise to the string `tlpub:` followed by lowercase hex. -/
def KeyID.MarshalJSON (k : KeyID) : Json :=
  if goLen k = 0 then .null
  else .str (tlpubTag ++ hexEncode (k.getD []))

/-- `tkatype.KeyID.UnmarshalJSON`: null becomes the empty (non-nil) slice; a
string must carry the `tlpub:` tag followed by valid hex; anything else is
an error. -/
def KeyID.UnmarshalJSON (j : Json) : Except String KeyID :=
  match j with
  | .null => .ok (some [])
  | .str s =>
    if s.take tlpubTag.length = tlpubTag then
      match hexDecode (s.drop tlpubTag.length) with
      | .ok d => .ok (some d)
      | .error e => .error ("KeyID: invalid hex encoding: " ++ e)
    else .error "KeyID: missing required tag tlpub in string"

/-- `tka.jsonPublicKey.MarshalJSON` (`tka/key.go`): same wire convention as
`tkatype.KeyID.MarshalJSON`. -/
def jsonPublicKey.MarshalJSON (k : Option Bytes) : Json :=
  if goLen k = 0 then .null
  else .str (tlpubTag ++ hexEncode (k.getD []))

/-- `tka.jsonPublicKey.UnmarshalJSON` (`tka/key.go`): same wire convention
as `tkatype.KeyID.UnmarshalJSON`. -/
def jsonPublicKey.UnmarshalJSON (j : Json) : Except String (Option Bytes) :=
  match j with
  | .null => .ok (some [])
  | .str s =>
    if s.take tlpubTag.length = tlpubTag then
      match hexDecode (s.drop tlpubTag.length) with
      | .ok d => .ok (some d)
      | .error e => .error ("KeyID: invalid hex encoding: " ++ e)
    else .error "KeyID: missing required tag tlpub in string"

/-- The documented null/empty-byte convention: a nil or empty byte slice
marshals to JSON null, which unmarshals to an empty non-nil slice; any
other slice survives the round trip unchanged. -/
def normPublic (p : Option Bytes) : Option Bytes :=
  if goLen p = 0 then some [] else p

/-- The JSON form of the anonymous intermediate struct in
`Key.MarshalJSON` / `Key.UnmarshalJSON`: `Kind` via its text codec,
`Votes` as a number, `Public` via `jsonPublicKey`, `Meta` handled by the
standard library (nil map to null and back). -/
structure KeyJsonForm where
  Kind : GoStr
  Votes : Nat
  Public : Json
  Meta : Option (List (GoStr × GoStr))
  deriving DecidableEq, Repr

/-- `tka.Key.MarshalJSON`: marshal through the intermediate struct. -/
def Key.MarshalJSON (k : Key) : KeyJsonForm :=
  { Kind := KeyKind.MarshalText k.Kind
  , Votes := k.Votes
  , Public := jsonPublicKey.MarshalJSON k.Public
  , Meta := k.Meta }

/-- `tka.Key.UnmarshalJSON`: unmarshal the intermediate struct, then copy
its fields; a failure in any field codec fails the whole unmarshal. -/
def Key.UnmarshalJSON (f : KeyJsonForm) : Except String Key :=
  match KeyKind.UnmarshalText f.Kind with
  | .error e => .error e
  | .ok kind =>
    match jsonPublicKey.UnmarshalJSON f.Public with
    | .error e => .error e
    | .ok pub => .ok { Kind := kind, Votes := f.Votes, Public := pub, Meta := f.Meta }

end Tka

namespace JsonOutput

open Tka (Bytes GoStr)

/-! ## CLI JSON log output (`cmd/tailscale/cli/jsonoutput/network-lock.go`)

The printer decodes each update's raw bytes back into an AUM with
`tka.AUM.Unserialize`, recomputes its BLAKE2s hash with `tka.AUM.Hash`, and
re-encodes the raw bytes with `base64.URLEncoding`. Those three functions
live outside the sources in scope, so the printer is parameterized over
them (`TkaOps`); every theorem below holds for all instantiations. -/

/-- `ipnstate.NetworkLockUpdate`, restricted to the fields the printer
reads: the stated AUM hash and the raw CBOR bytes. -/
structure NetworkLockUpdate where
  Hash : Bytes
  Raw : Bytes
  deriving DecidableEq, Repr

/-- The external tka operations the printer calls, over an abstract AUM
type `α`: `tka.AUM.Unserialize`, `tka.AUM.Hash`, and base64 encoding. -/
structure TkaOps (α : Type) where
  unserialize : Bytes → Except String α
  hash : α → Bytes
  b64encode : Bytes → GoStr

/-- `logMessageV1`: one JSON log entry. -/
structure LogMessageV1 (α : Type) where
  Hash : Bytes
  AUM : α
  Raw : GoStr

/-- The JSON envelope written by the V1 printer. -/
structure V1Output (α : Type) where
  SchemaVersion : GoStr
  Messages : List (LogMessageV1 α)

/-- The loop body of `printNetworkLockJSONV1`: decode each update, check
the recomputed hash against the stated one, and build the entry list;
return the first error otherwise. -/
def buildMessagesV1 {α : Type} (ops : TkaOps α) :
    List NetworkLockUpdate → Except String (List (LogMessageV1 α))
  | [] => .ok []
  | u :: rest =>
    match ops.unserialize u.Raw with
    | .error e => .error ("decoding: " ++ e)
    | .ok aum =>
      if ops.hash aum = u.Hash then
        match buildMessagesV1 ops rest with
        | .error e => .error e
        | .ok ms =>
          .ok ({ Hash := ops.hash aum, AUM := aum, Raw := ops.b64encode u.Raw } :: ms)
      else .error "incorrect AUM hash"

/-- `printNetworkLockJSONV1`: verify and expand every update, then emit the
schema-version-1 envelope; any failure yields an error and no envelope. -/
def printNetworkLockJSONV1 {α : Type} (ops : TkaOps α)
    (updates : List NetworkLockUpdate) : Except String (V1Output α) :=
  match buildMessagesV1 ops updates with
  | .error e => .error e
  | .ok ms => .ok { SchemaVersion := "1".data, Messages := ms }

/-- `PrintNetworkLockJSON`: dispatch on the requested schema version;
only version 1 is recognized. -/
def PrintNetworkLockJSON {α : Type} (ops : TkaOps α)
    (updates : List NetworkLockUpdate) (jsonVersion : Int) :
    Except String (V1Output α) :=
  if jsonVersion = 1 then printNetworkLockJSONV1 ops updates
  else .error ("unrecognised version: " ++ toString jsonVersion)

/-- A trivial instantiation of the external tka operations, used to
exercise the printer theorems at concrete inputs: every unserialize
attempt fails. -/
def trivOps : TkaOps Unit :=
  { unserialize := fun _ => .error "no", hash := fun _ => [], b64encode := fun _ => [] }

end JsonOutput

namespace Tka

/-! ## Helper lemmas -/

theorem copyBytes_eq (b : Bytes) : copyBytes b = b := by
  induction b with
  | nil => rfl
  | cons x xs ih => simp [copyBytes, ih]

theorem copyMeta_eq (m : List (GoStr × GoStr)) : copyMeta m = m := by
  induction m with
  | nil => rfl
  | cons kv rest ih => simp [copyMeta, ih]

theorem fromHexChar_hexDigitChar (n : Nat) (h : n < 16) :
    fromHexChar (hexDigitChar n) = .ok n := by
  interval_cases n <;> decide

theorem hexDecode_hexEncode (bs : Bytes) (h : ∀ b ∈ bs, b < 256) :
    hexDecode (hexEncode bs) = .ok bs := by
  induction bs with
  | nil => rfl
  | cons b rest ih =>
    have hb : b < 256 := h b (by simp)
    have hrest : ∀ x ∈ rest, x < 256 := fun x hx => h x (by simp [hx])
    have h1 : b % 256 / 16 < 16 := by omega
    have h2 : b % 16 < 16 := by omega
    have hval : 16 * (b % 256 / 16) + b % 16 = b := by omega
    simp only [hexEncode, hexDecode, fromHexChar_hexDigitChar _ h1,
      fromHexChar_hexDigitChar _ h2, ih hrest, hval]

theorem hexDigitChar_mem_alphabet (n : Nat) (h : n < 16) :
    hexDigitChar n ∈ hexAlphabet := by
  interval_cases n <;> decide

theorem hexEncode_subset_alphabet (bs : Bytes) :
    ∀ c ∈ hexEncode bs, c ∈ hexAlphabet := by
  induction bs with
  | nil => intro c hc; simp [hexEncode] at hc
  | cons b rest ih =>
    intro c hc
    simp only [hexEncode, List.mem_cons] at hc
    rcases hc with rfl | rfl | hc
    · exact hexDigitChar_mem_alphabet _ (by omega)
    · exact hexDigitChar_mem_alphabet _ (by omega)
    · exact ih c hc

theorem KeyID_UnmarshalJSON_str_tag (x : GoStr) :
    KeyID.UnmarshalJSON (.str (tlpubTag ++ x)) =
      (match hexDecode x with
      | .ok d => .ok (some d)
      | .error e => .error ("KeyID: invalid hex encoding: " ++ e)) := by
  simp only [KeyID.UnmarshalJSON]
  rw [if_pos (List.take_left ..), List.drop_left]

theorem KeyID_json_roundtrip (p : KeyID) (h : ∀ b ∈ p.getD [], b < 256) :
    KeyID.UnmarshalJSON (KeyID.MarshalJSON p) = .ok (normPublic p) := by
  unfold KeyID.MarshalJSON normPublic
  by_cases h0 : goLen p = 0
  · rw [if_pos h0, if_pos h0]
    rfl
  · rw [if_neg h0, if_neg h0]
    rw [KeyID_UnmarshalJSON_str_tag, hexDecode_hexEncode _ h]
    have hp : some (p.getD []) = p := by
      cases p with
      | none => exact absurd rfl h0
      | some l => rfl
    show Except.ok (some (p.getD [])) = Except.ok p
    rw [hp]

theorem jsonPublicKey_MarshalJSON_eq : jsonPublicKey.MarshalJSON = KeyID.MarshalJSON := by
  funext p
  rfl

theorem jsonPublicKey_UnmarshalJSON_eq :
    jsonPublicKey.UnmarshalJSON = KeyID.UnmarshalJSON := by
  funext j
  cases j <;> rfl

theorem jsonPublicKey_json_roundtrip (p : Option Bytes)
    (h : ∀ b ∈ p.getD [], b < 256) :
    jsonPublicKey.UnmarshalJSON (jsonPublicKey.MarshalJSON p) = .ok (normPublic p) := by
  rw [jsonPublicKey_MarshalJSON_eq, jsonPublicKey_UnmarshalJSON_eq]
  exact KeyID_json_roundtrip p h

theorem KeyKindString_invalid : KeyKindString KeyInvalid = "invalid".data := rfl

theorem KeyKindString_25519 : KeyKindString Key25519 = "25519".data := rfl

/-! ## Claims -/

theorem staticValidate_ok_iff (k : Key) :
    Key.StaticValidate k = .ok () ↔
      (1 ≤ k.Votes ∧ k.Votes ≤ 4096 ∧ metaByteLen k.Meta ≤ maxMetaBytes ∧
        k.Kind = Key25519) := by
  unfold Key.StaticValidate maxMetaBytes Key25519
  split_ifs <;> simp_all <;> omega

theorem staticValidate_err_of_not (k : Key)
    (h : ¬ (1 ≤ k.Votes ∧ k.Votes ≤ 4096 ∧ metaByteLen k.Meta ≤ maxMetaBytes ∧
      k.Kind = Key25519)) :
    isOk (Key.StaticValidate k) = false := by
  cases hsv : Key.StaticValidate k with
  | error e => rfl
  | ok u =>
    cases u
    exact absurd ((staticValidate_ok_iff k).mp hsv) h

/-- C1: `Key.StaticValidate` succeeds exactly when `Votes ∈ [1, 4096]`, the
total metadata byte length is at most 512, and the kind is the recognized
`Key25519` variant; in particular it fails for zero votes, for votes above
4096, and for the invalid/unset sentinel kind. -/
theorem C1_staticValidate_characterization (k : Key) :
    (Key.StaticValidate k = .ok () ↔
      (1 ≤ k.Votes ∧ k.Votes ≤ 4096 ∧ metaByteLen k.Meta ≤ maxMetaBytes ∧
        k.Kind = Key25519)) ∧
    (k.Votes = 0 → isOk (Key.StaticValidate k) = false) ∧
    (4096 < k.Votes → isOk (Key.StaticValidate k) = false) ∧
    (k.Kind = KeyInvalid → isOk (Key.StaticValidate k) = false) := by
  refine ⟨staticValidate_ok_iff k, ?_, ?_, ?_⟩
  · intro h
    exact staticValidate_err_of_not k (fun hc => by omega)
  · intro h
    exact staticValidate_err_of_not k (fun hc => by omega)
  · intro h
    exact staticValidate_err_of_not k
      (fun hc => absurd (hc.2.2.2.symm.trans h) (by decide))

/-- Witness for C1 at concrete keys: a valid key passes and a zero-vote key
fails. -/
theorem C1_witness :
    Key.StaticValidate ⟨Key25519, 1, some [], none⟩ = .ok () ∧
    isOk (Key.StaticValidate ⟨Key25519, 0, some [], none⟩) = false :=
  ⟨(C1_staticValidate_characterization ⟨Key25519, 1, some [], none⟩).1.mpr (by decide),
   (C1_staticValidate_characterization ⟨Key25519, 0, some [], none⟩).2.1 rfl⟩

/-- C2 counterexample: a `Key25519` key whose `Public` is 2 bytes (not 32)
nevertheless passes `Key.StaticValidate`, so static validation does not
enforce the 32-byte public-key length the claim asserts. -/
theorem C2_counterexample :
    (Key.mk Key25519 1 (some [1, 1]) none).Kind = Key25519 ∧
    goLen (Key.mk Key25519 1 (some [1, 1]) none).Public ≠ 32 ∧
    Key.StaticValidate (Key.mk Key25519 1 (some [1, 1]) none) = .ok () := by
  refine ⟨rfl, by decide, ?_⟩
  decide

/-- C2 amended: `Key.StaticValidate` does not inspect `Public` at all: a
`Key25519` key with in-range votes and bounded metadata passes static
validation whatever the length of its `Public` bytes, including lengths
other than 32. -/
theorem C2_amended_no_public_length_check (k : Key) (h1 : k.Kind = Key25519)
    (h2 : 1 ≤ k.Votes) (h3 : k.Votes ≤ 4096)
    (h4 : metaByteLen k.Meta ≤ maxMetaBytes) (_h5 : goLen k.Public ≠ 32) :
    Key.StaticValidate k = .ok () :=
  (staticValidate_ok_iff k).mpr ⟨h2, h3, h4, h1⟩

/-- Witness for the amended C2 at a concrete 2-byte-public key. -/
theorem C2_amended_witness :
    Key.StaticValidate (Key.mk Key25519 1 (some [1, 1]) none) = .ok () :=
  C2_amended_no_public_length_check (Key.mk Key25519 1 (some [1, 1]) none)
    rfl (by decide) (by decide) (by decide) (by decide)

/-- C3: `Key.ID` returns exactly the raw `Public` bytes unchanged for
`Key25519` keys, and an error (no fallback value) for every other kind. -/
theorem C3_id_raw_public_or_error (k : Key) :
    (k.Kind = Key25519 → Key.ID k = .ok k.Public) ∧
    (k.Kind ≠ Key25519 → isOk (Key.ID k) = false) := by
  unfold Key.ID
  constructor
  · intro h
    rw [if_pos h]
  · intro h
    rw [if_neg h]
    rfl

/-- Witness for C3: a 25519 key yields its public bytes; the invalid
sentinel kind errors. -/
theorem C3_witness :
    Key.ID (Key.mk Key25519 1 (some [5, 6]) none) = .ok (some [5, 6]) ∧
    isOk (Key.ID (Key.mk KeyInvalid 1 (some [5, 6]) none)) = false :=
  ⟨(C3_id_raw_public_or_error (Key.mk Key25519 1 (some [5, 6]) none)).1 rfl,
   (C3_id_raw_public_or_error (Key.mk KeyInvalid 1 (some [5, 6]) none)).2 (by decide)⟩

/-- C7: `Key.Ed25519` returns a kind-mismatch error (and hence no key
material) for every kind other than `Key25519`, and the `Public` bytes as
the ed25519 public key for `Key25519`. -/
theorem C7_ed25519_kind_mismatch (k : Key) :
    (k.Kind ≠ Key25519 → isOk (Key.Ed25519 k) = false) ∧
    (k.Kind = Key25519 → Key.Ed25519 k = .ok k.Public) := by
  unfold Key.Ed25519
  constructor
  · intro h
    rw [if_neg h]
    rfl
  · intro h
    rw [if_pos h]

/-- Witness for C7 at concrete keys of each kind. -/
theorem C7_witness :
    isOk (Key.Ed25519 (Key.mk KeyInvalid 1 (some [9]) none)) = false ∧
    Key.Ed25519 (Key.mk Key25519 1 (some [9]) none) = .ok (some [9]) :=
  ⟨(C7_ed25519_kind_mismatch (Key.mk KeyInvalid 1 (some [9]) none)).1 (by decide),
   (C7_ed25519_kind_mismatch (Key.mk Key25519 1 (some [9]) none)).2 rfl⟩

/-- C8: `Key.Clone` reproduces every field of the key, and in particular
keeps a nil `Public`/`Meta` nil and a non-nil one non-nil. -/
theorem C8_clone_eq (k : Key) :
    Key.Clone k = k ∧
    ((Key.Clone k).Public = none ↔ k.Public = none) ∧
    ((Key.Clone k).Meta = none ↔ k.Meta = none) := by
  have h : Key.Clone k = k := by
    cases k with
    | mk kind votes pub meta =>
      cases pub <;> cases meta <;> simp [Key.Clone, copyBytes_eq, copyMeta_eq]
  exact ⟨h, by rw [h], by rw [h]⟩

/-- C4: JSON round trip at the public interface: unmarshalling a marshalled
`KeyID` yields it back, and likewise for a `Key` (all of `Kind`, `Votes`,
`Public` and `Meta` are recovered), modulo the documented null/empty-byte
convention (`normPublic`): a nil or empty byte slice marshals to JSON null
and unmarshals to an empty non-nil slice. Requires the kind to be a
recognized variant; the byte bounds record that Go bytes are below 256. -/
theorem C4_json_roundtrip (p : KeyID) (k : Key)
    (hp : ∀ b ∈ p.getD [], b < 256)
    (hkind : k.Kind = KeyInvalid ∨ k.Kind = Key25519)
    (hb : ∀ b ∈ k.Public.getD [], b < 256) :
    KeyID.UnmarshalJSON (KeyID.MarshalJSON p) = .ok (normPublic p) ∧
    Key.UnmarshalJSON (Key.MarshalJSON k) =
      .ok { k with Public := normPublic k.Public } := by
  refine ⟨KeyID_json_roundtrip p hp, ?_⟩
  have hkt : KeyKind.UnmarshalText (KeyKind.MarshalText k.Kind) = .ok k.Kind := by
    rcases hkind with h | h <;> rw [h] <;> decide
  have hpt : jsonPublicKey.UnmarshalJSON (jsonPublicKey.MarshalJSON k.Public) =
      .ok (normPublic k.Public) := jsonPublicKey_json_roundtrip k.Public hb
  simp only [Key.MarshalJSON, Key.UnmarshalJSON, hkt, hpt]

/-- Witness for C4 at a concrete `KeyID` and `Key`. -/
theorem C4_witness :
    KeyID.UnmarshalJSON (KeyID.MarshalJSON (some [0, 255])) =
      .ok (normPublic (some [0, 255])) ∧
    Key.UnmarshalJSON (Key.MarshalJSON (Key.mk Key25519 1 (some [7]) none)) =
      .ok { Key.mk Key25519 1 (some [7]) none with Public := normPublic (some [7]) } :=
  C4_json_roundtrip (some [0, 255]) (Key.mk Key25519 1 (some [7]) none)
    (by decide) (Or.inr rfl) (by decide)

/-- C5: the human-facing text form of a key identifier is exactly the
string `tlpub:` followed by the lowercase hex encoding of the bytes, for
both `tkatype.KeyID` and `tka.jsonPublicKey`, whenever the value is
non-empty; every character of the hex part is a lowercase hex digit; an
empty or nil value marshals to JSON null. -/
theorem C5_tlpub_text_form (p : Option Bytes) :
    (goLen p ≠ 0 →
      KeyID.MarshalJSON p = .str (tlpubTag ++ hexEncode (p.getD [])) ∧
      jsonPublicKey.MarshalJSON p = .str (tlpubTag ++ hexEncode (p.getD [])) ∧
      ∀ c ∈ hexEncode (p.getD []), c ∈ hexAlphabet) ∧
    (goLen p = 0 →
      KeyID.MarshalJSON p = .null ∧ jsonPublicKey.MarshalJSON p = .null) := by
  constructor
  · intro h
    unfold KeyID.MarshalJSON jsonPublicKey.MarshalJSON
    rw [if_neg h]
    exact ⟨rfl, rfl, hexEncode_subset_alphabet _⟩
  · intro h
    unfold KeyID.MarshalJSON jsonPublicKey.MarshalJSON
    rw [if_pos h]
    exact ⟨rfl, rfl⟩

/-- Witness for C5 at the concrete one-byte key 0xab and at the empty
key. -/
theorem C5_witness :
    (KeyID.MarshalJSON (some [171]) = .str (tlpubTag ++ hexEncode [171]) ∧
      jsonPublicKey.MarshalJSON (some [171]) = .str (tlpubTag ++ hexEncode [171]) ∧
      ∀ c ∈ hexEncode ((some [171] : Option Bytes).getD []), c ∈ hexAlphabet) ∧
    (KeyID.MarshalJSON (some []) = .null ∧ jsonPublicKey.MarshalJSON (some []) = .null) :=
  ⟨(C5_tlpub_text_form (some [171])).1 (by decide),
   (C5_tlpub_text_form (some [])).2 (by decide)⟩

/-- C10: text round-trip on `KeyKind`: the two recognized kinds survive a
marshal/unmarshal cycle; every other string, including the `Key?<n>` form
that the marshaler produces for out-of-range kinds, is rejected by
`UnmarshalText`. -/
theorem C10_kind_text_roundtrip :
    (KeyKind.UnmarshalText (KeyKind.MarshalText KeyInvalid) = .ok KeyInvalid) ∧
    (KeyKind.UnmarshalText (KeyKind.MarshalText Key25519) = .ok Key25519) ∧
    (∀ s : GoStr, s ≠ "invalid".data → s ≠ "25519".data →
      isOk (KeyKind.UnmarshalText s) = false) ∧
    (∀ n : KeyKind, 2 ≤ n →
      isOk (KeyKind.UnmarshalText (KeyKind.MarshalText n)) = false) := by
  refine ⟨by decide, by decide, ?_, ?_⟩
  · intro s h1 h2
    unfold KeyKind.UnmarshalText
    split_ifs with e1 e2
    · exact absurd (e1.trans KeyKindString_invalid) h1
    · exact absurd (e2.trans KeyKindString_25519) h2
    · rfl
  · intro n hn
    have hK : KeyKind.MarshalText n =
        'K' :: ("ey?<".data ++ (Nat.toDigits 10 n ++ ">".data)) := by
      unfold KeyKind.MarshalText KeyKindString KeyInvalid Key25519
      rw [if_neg (show ¬ (n = 0) from fun h => by
            rw [h] at hn; exact absurd hn (by decide)),
          if_neg (show ¬ (n = 1) from fun h => by
            rw [h] at hn; exact absurd hn (by decide))]
      rfl
    unfold KeyKind.UnmarshalText
    split_ifs with e1 e2
    · rw [hK, KeyKindString_invalid] at e1
      injection e1 with hh _
      exact absurd hh (by decide)
    · rw [hK, KeyKindString_25519] at e2
      injection e2 with hh _
      exact absurd hh (by decide)
    · rfl

/-- Witness for C10: the out-of-range kind 7 marshals to a string that
fails to unmarshal. -/
theorem C10_witness :
    isOk (KeyKind.UnmarshalText (KeyKind.MarshalText 7)) = false :=
  C10_kind_text_roundtrip.2.2.2 7 (by decide)

end Tka

namespace JsonOutput

/-- C6: for every update list and every requested JSON schema version other
than 1, `PrintNetworkLockJSON` returns the unrecognised-version error (no
fallback to a default schema), and for version 1 it dispatches to the V1
printer. Holds for every instantiation of the external tka operations. -/
theorem C6_unrecognised_version {α : Type} (ops : TkaOps α)
    (updates : List NetworkLockUpdate) (v : Int) :
    (v ≠ 1 → PrintNetworkLockJSON ops updates v =
      .error ("unrecognised version: " ++ toString v)) ∧
    PrintNetworkLockJSON ops updates 1 = printNetworkLockJSONV1 ops updates := by
  constructor
  · intro h
    unfold PrintNetworkLockJSON
    rw [if_neg h]
  · unfold PrintNetworkLockJSON
    rw [if_pos rfl]

/-- Witness for C6 at version 2 with no updates. -/
theorem C6_witness :
    PrintNetworkLockJSON trivOps [] 2 =
      .error ("unrecognised version: " ++ toString (2 : Int)) :=
  (C6_unrecognised_version trivOps [] 2).1 (by decide)

theorem buildMessagesV1_error_of_bad {α : Type} (ops : TkaOps α) :
    ∀ us : List NetworkLockUpdate,
      (∃ u ∈ us, Tka.isOk (ops.unserialize u.Raw) = false ∨
        ∃ a, ops.unserialize u.Raw = .ok a ∧ ops.hash a ≠ u.Hash) →
      Tka.isOk (buildMessagesV1 ops us) = false := by
  intro us
  induction us with
  | nil =>
    rintro ⟨u, hu, _⟩
    simp at hu
  | cons u rest ih =>
    rintro ⟨v, hv, hbad⟩
    rcases List.mem_cons.mp hv with rfl | hv'
    · cases hdec : ops.unserialize v.Raw with
      | error e => simp [buildMessagesV1, hdec, Tka.isOk]
      | ok a =>
        rcases hbad with hb | ⟨a2, ha2, hne⟩
        · rw [hdec] at hb
          simp [Tka.isOk] at hb
        · rw [hdec] at ha2
          have ha : a = a2 := by injection ha2
          subst ha
          simp [buildMessagesV1, hdec, hne, Tka.isOk]
    · cases hdec : ops.unserialize u.Raw with
      | error e => simp [buildMessagesV1, hdec, Tka.isOk]
      | ok a =>
        by_cases hh : ops.hash a = u.Hash
        · have hrest := ih ⟨v, hv', hbad⟩
          cases hres : buildMessagesV1 ops rest with
          | error e => simp [buildMessagesV1, hdec, hh, hres, Tka.isOk]
          | ok ms =>
            rw [hres] at hrest
            simp [Tka.isOk] at hrest
        · simp [buildMessagesV1, hdec, hh, Tka.isOk]

/-- C9: the V1 printer verifies its input before emitting anything: if any
update's raw bytes fail to unserialize, or the hash recomputed from the raw
bytes differs from the stated hash, `printNetworkLockJSONV1` returns an
error and produces no JSON envelope. Holds for every instantiation of the
external unserialize/hash operations. -/
theorem C9_v1_rejects_bad_updates {α : Type} (ops : TkaOps α)
    (updates : List NetworkLockUpdate)
    (h : ∃ u ∈ updates, Tka.isOk (ops.unserialize u.Raw) = false ∨
      ∃ a, ops.unserialize u.Raw = .ok a ∧ ops.hash a ≠ u.Hash) :
    Tka.isOk (printNetworkLockJSONV1 ops updates) = false := by
  have hb := buildMessagesV1_error_of_bad ops updates h
  unfold printNetworkLockJSONV1
  cases hres : buildMessagesV1 ops updates with
  | error e => rfl
  | ok ms =>
    rw [hres] at hb
    simp [Tka.isOk] at hb

/-- Witness for C9: an update whose raw bytes fail to decode makes the V1
printer fail. -/
theorem C9_witness :
    Tka.isOk (printNetworkLockJSONV1 trivOps [NetworkLockUpdate.mk [] [1]]) = false :=
  C9_v1_rejects_bad_updates trivOps [NetworkLockUpdate.mk [] [1]]
    ⟨NetworkLockUpdate.mk [] [1], by simp, Or.inl (by decide)⟩

end JsonOutput
